import Mathlib

/-!
Verification of the OCRmyPDF web front-end (`ocrmypdf_web.py`).

The file shallow-embeds the configuration-to-invocation pipeline of the
Streamlit script: the validator `validate_config`, the heuristic text
detector `check_pdf_has_text`, the error classification and result shape
of `process_single_file`, the command-line argument synthesis, and the
sequential batch loop.  Python strings are Lean `String`s, Python byte
strings are `List Nat`, Python unbounded integers are `Int` (or `Nat`
where the source value is a non-negative widget value), and the file
system visible to one invocation is a predicate `String → Bool` giving
which paths currently exist.
-/

namespace OCRWeb

/-- `strMatchAt needle hay` : does `needle` occur at the head of `hay`?
Helper for the Python `in` substring operator. -/
def strMatchAt : List Char → List Char → Bool
  | [], _ => true
  | _ :: _, [] => false
  | a :: as, b :: bs => a == b && strMatchAt as bs

/-- `subSearch needle hay` : does `needle` occur anywhere in `hay`? -/
def subSearch (needle : List Char) : List Char → Bool
  | [] => strMatchAt needle []
  | c :: rest => strMatchAt needle (c :: rest) || subSearch needle rest

/-- The Python substring test `needle in hay` on strings. -/
def pyContains (hay needle : String) : Bool :=
  subSearch needle.data hay.data

/-- Python truthiness of a string (`if s:`): non-empty. -/
def pyTruthy (s : String) : Bool := !(s.data.isEmpty)

/-- The Python `str.lower()` call, per character. -/
def pyLower (s : String) : String := ⟨s.data.map Char.toLower⟩

/-- The Python `str.endswith(suffix)` test: the reversed suffix matches
the head of the reversed string. -/
def pyEndsWith (s suffix : String) : Bool :=
  strMatchAt suffix.data.reverse s.data.reverse

/-! ## Validator (`validate_config`, src lines 95-108) -/

/-- The config dict built at src lines 317-322: all four keys are present,
so every `config.get(key, default)` in `validate_config` reads the stored
value and the defaults are irrelevant. -/
structure WebConfig where
  image_dpi : Int
  jobs : Int
  jpeg_quality : Int
  png_quality : Int

/-- Violation string for the DPI range rule. -/
def dpiError : String := "DPI值应在72-600之间"

/-- Violation string for the thread-count rule; the f-string interpolates
`os.cpu_count()`. -/
def jobsError (cpu_count : Nat) : String :=
  "线程数应在1-" ++ Nat.repr cpu_count ++ "之间"

/-- Violation string for the JPEG quality rule. -/
def jpegError : String := "JPEG质量应在1-100之间"

/-- Shallow embedding of `validate_config` (src lines 95-108): three
independent range checks, each appending one message to `errors`;
`png_quality` is never read. -/
def validate_config (config : WebConfig) (cpu_count : Nat) : List String :=
  (if config.image_dpi < 72 ∨ config.image_dpi > 600 then [dpiError] else []) ++
  (if config.jobs < 1 ∨ config.jobs > (cpu_count : Int) then [jobsError cpu_count] else []) ++
  (if config.jpeg_quality < 1 ∨ config.jpeg_quality > 100 then [jpegError] else [])

/-! ## Heuristic text detector (`check_pdf_has_text`, src lines 110-133)

A parsed page is modelled by the string representation of its
`/Contents` value when the key is present (Python str of the page entry, default empty),
and `none` when the page has no `/Contents` key.  A document that pikepdf
fails to open is `none` at the document level. -/

structure PDFPage where
  contents : Option String

/-- Does one parsed page trip the text heuristic (src lines 121-125)? -/
def pageHasText (p : PDFPage) : Bool :=
  match p.contents with
  | some c => pyContains c "Tj" || pyContains c "TJ" || pyContains c "Td"
  | none => false

/-- Shallow embedding of `check_pdf_has_text`, tracking the temporary file
it writes.  Returns `(result, tempRemains)` where `tempRemains` records
whether the `NamedTemporaryFile(delete=False)` copy still exists when the
function returns:

* parse failure → the `except` branch returns `False` without reaching
  `os.unlink` (the temp file remains);
* a match in the first 3 pages → `return True` fires inside the `with`
  blocks, before `os.unlink` (the temp file remains);
* no match → the loop falls through, `os.unlink` runs, then `return False`. -/
def check_pdf_has_text_run (doc : Option (List PDFPage)) : Bool × Bool :=
  match doc with
  | none => (false, true)
  | some pages =>
    if (pages.take 3).any pageHasText then (true, true)
    else (false, false)

/-- The boolean result of `check_pdf_has_text` alone. -/
def check_pdf_has_text (doc : Option (List PDFPage)) : Bool :=
  (check_pdf_has_text_run doc).1

/-! ## Failure classification in `process_single_file` (src lines 479-498)

The source appends a remediation hint to the error message chosen by an
`if`/`elif` chain of substring tests on the captured stderr.  `errorKind`
names which branch of that chain fires (the error taxonomy used by the spec). -/

inductive ErrKind where
  | AlreadyHasText
  | EngineNotFound
  | LanguagePackMissing
  | UnclassifiedFailure
deriving DecidableEq, Repr

/-- Which branch of the `if`/`elif` chain at src lines 484-496 fires for a
given stderr text (nonzero exit code path). -/
def errorKind (stderr : String) : ErrKind :=
  if pyContains stderr "PriorOcrFoundError" || pyContains stderr "page already has text" then
    .AlreadyHasText
  else if pyContains stderr "TesseractNotFoundError" then
    .EngineNotFound
  else if pyContains (pyLower stderr) "language" && pyContains (pyLower stderr) "not found" then
    .LanguagePackMissing
  else
    .UnclassifiedFailure

/-- Remediation hint appended for the `AlreadyHasText` branch. -/
def alreadyHasTextHint : String :=
  "\n\n💡 解决方案：\n• 该PDF已包含文本层\n• 请选择\x27强制OCR（覆盖已有文本）\x27模式重新处理\n• 或选择\x27跳过文本页面\x27模式跳过已有文本的页面"

/-- Remediation hint appended for the `EngineNotFound` branch. -/
def engineNotFoundHint : String :=
  "\n\n💡 解决方案：\n• Tesseract OCR引擎未安装或未找到\n• 请确保已正确安装Tesseract OCR"

/-- Remediation hint appended for the `LanguagePackMissing` branch. -/
def languagePackHint : String :=
  "\n\n💡 解决方案：\n• 所选语言包未安装\n• 请安装相应的Tesseract语言包"

/-- The full error message built at src lines 480-496 for a nonzero exit
code: base message plus the hint of the branch that fired. -/
def nonzeroExitMsg (returncode : Int) (stderr : String) : String :=
  "OCR处理失败 (退出码: " ++ toString returncode ++ ")\n" ++ stderr ++
    (match errorKind stderr with
     | .AlreadyHasText => alreadyHasTextHint
     | .EngineNotFound => engineNotFoundHint
     | .LanguagePackMissing => languagePackHint
     | .UnclassifiedFailure => "")

/-- The message returned when the child exits 0 but the output file is
missing or empty (src line 476). -/
def noOutputMsg : String := "未生成输出文件"

/-! ## `process_single_file` result classification (src lines 465-498)

The observable behaviour of one child-process run: its exit code, its
stderr text, and the state of the output temp file after the child exits
(`none` if the file no longer exists, otherwise the bytes it holds — the
file is created empty by `NamedTemporaryFile`, so "child wrote nothing"
is `some []`). -/

structure ChildRun where
  returncode : Int
  stderr : String
  outputFile : Option (List Nat)

/-- The `(output_data, error_msg)` pair returned by `process_single_file`
on the non-exception paths (src lines 465-498): exit 0 with an existing,
non-empty output file yields the bytes of the file; exit 0 otherwise yields
`noOutputMsg`; nonzero exit yields the classified message. -/
def process_single_file (c : ChildRun) : Option (List Nat) × Option String :=
  if c.returncode = 0 then
    match c.outputFile with
    | some bytes =>
      if bytes.length > 0 then (some bytes, none)
      else (none, some noOutputMsg)
    | none => (none, some noOutputMsg)
  else
    (none, some (nonzeroExitMsg c.returncode c.stderr))

/-! ## Resource model of `process_single_file` (src lines 436-512)

The try/finally structure of the function, with its two
`NamedTemporaryFile(delete=False)` files and the cleanup in the
`finally` block.  The file system is `String → Bool` (which paths
exist); `unlinkFails` is the oracle for `os.unlink` raising on an
existing path (permissions etc.); `raiseAt` is the point, if any, at
which the try body raises. -/

/-- Points of the try body where an exception can be raised: creating
the input temp file, writing the uploaded bytes to it, creating the
output temp file, spawning the child, or reading the output file back. -/
inductive Stage where
  | mkInput
  | writeInput
  | mkOutput
  | spawn
  | readOutput
deriving DecidableEq, Repr

/-- The environment one invocation runs in. -/
structure RunWorld where
  raiseAt : Option Stage
  excText : String
  child : ChildRun
  unlinkFails : String → Bool

/-- Update the file system at one path. -/
def setFile (fs : String → Bool) (n : String) (b : Bool) : String → Bool :=
  fun m => if m = n then b else fs m

/-- The `finally` block (src lines 504-512).  One `try` wraps both
unlinks: `os.unlink(input_file.name)` runs whenever `input_file` is in
scope (unguarded, so a missing file raises `FileNotFoundError`), and
`os.unlink(output_file.name)` runs only afterwards, guarded by
`Path(...).exists()`.  Any exception is caught and logged.  Returns the
file system after the block and whether a cleanup failure was logged. -/
def cleanupFinally (uf : String → Bool) (fs : String → Bool)
    (inCreated outCreated : Bool) (inName outName : String) :
    (String → Bool) × Bool :=
  if inCreated then
    if uf inName || !(fs inName) then
      (fs, true)
    else
      let fs1 := setFile fs inName false
      if outCreated && fs1 outName then
        if uf outName then (fs1, true)
        else (setFile fs1 outName false, false)
      else (fs1, false)
  else
    if outCreated && fs outName then
      if uf outName then (fs, true)
      else (setFile fs outName false, false)
    else (fs, false)

/-- The result of one modelled invocation: the returned
`(output_data, error_msg)` pair, the file system at return, and whether
a cleanup failure was logged. -/
structure RunState where
  result : Option (List Nat) × Option String
  fs : String → Bool
  cleanupLogged : Bool

/-- The message built by the outer `except` clause (src line 501). -/
def runnerExcMsg (w : RunWorld) : String :=
  "处理过程中发生错误: " ++ w.excText

/-- Full model of `process_single_file` (src lines 436-512): create the
input temp file, write the upload into it, create the output temp file,
spawn the child and wait, classify the outcome, and always run the
`finally` cleanup.  `w.raiseAt` selects the exception path, if any;
the child owns the output file while it runs: `w.child.outputFile` is
its state after the child exits (`none` if the child removed it). -/
def process_single_file_run (w : RunWorld) (inName outName : String)
    (fs0 : String → Bool) : RunState :=
  if w.raiseAt = some Stage.mkInput then
    -- NamedTemporaryFile raised: no file created, input_file not in locals
    let c := cleanupFinally w.unlinkFails fs0 false false inName outName
    ⟨(none, some (runnerExcMsg w)), c.1, c.2⟩
  else
    let fs1 := setFile fs0 inName true
    if w.raiseAt = some Stage.writeInput || w.raiseAt = some Stage.mkOutput then
      let c := cleanupFinally w.unlinkFails fs1 true false inName outName
      ⟨(none, some (runnerExcMsg w)), c.1, c.2⟩
    else
      let fs2 := setFile fs1 outName true
      if w.raiseAt = some Stage.spawn then
        let c := cleanupFinally w.unlinkFails fs2 true true inName outName
        ⟨(none, some (runnerExcMsg w)), c.1, c.2⟩
      else
        -- the child ran to completion
        let fs3 := if w.child.outputFile.isNone then setFile fs2 outName false else fs2
        let willRead : Bool :=
          w.child.returncode = 0 &&
            match w.child.outputFile with
            | some bytes => bytes.length > 0
            | none => false
        let body :=
          if w.raiseAt = some Stage.readOutput && willRead then
            (none, some (runnerExcMsg w))
          else process_single_file w.child
        let c := cleanupFinally w.unlinkFails fs3 true true inName outName
        ⟨body, c.1, c.2⟩

/-! ## Argument synthesis (src lines 536-584)

The widget values feeding the synthesis.  Free-text widgets (`pages`,
metadata fields) are arbitrary strings; select boxes range over their
fixed option lists; sliders are natural numbers; `str(...)` on a number
is `Nat.repr`. -/

structure UIConfig where
  mode : String
  language : String
  pages : String
  image_dpi : Nat
  rotate_pages : Bool
  deskew : Bool
  clean : Bool
  clean_final : Bool
  output_type : String
  optimize : String
  jpeg_quality : Nat
  png_quality : Nat
  title : String
  author : String
  subject : String
  keywords : String
  jobs : Nat

/-- Shallow embedding of the argument synthesis at src lines 536-584.
`firstName` is `uploaded_file.name`; in batch mode `uploaded_file` is
`uploaded_files[0]` (src line 346), so the `--image-dpi` test reads the
first uploaded file regardless of which file is being processed. -/
def buildArgs (c : UIConfig) (firstName : String) : List String :=
  ["ocrmypdf"] ++
  (if c.mode ≠ "normal" then ["--" ++ c.mode] else []) ++
  (if pyTruthy c.language then ["-l", c.language] else []) ++
  (if pyTruthy c.pages then ["--pages", c.pages] else []) ++
  (if !(pyEndsWith (pyLower firstName) ".pdf") && c.image_dpi != 0 then
    ["--image-dpi", Nat.repr c.image_dpi] else []) ++
  (if c.rotate_pages then ["--rotate-pages"] else []) ++
  (if c.deskew then ["--deskew"] else []) ++
  (if c.clean then ["--clean"] else []) ++
  (if c.clean_final then ["--clean-final"] else []) ++
  (if pyTruthy c.output_type then ["--output-type", c.output_type] else []) ++
  (if c.optimize ≠ "0" then
    ["--optimize", c.optimize, "--jpeg-quality", Nat.repr c.jpeg_quality,
     "--png-quality", Nat.repr c.png_quality] else []) ++
  (if pyTruthy c.title then ["--title", c.title] else []) ++
  (if pyTruthy c.author then ["--author", c.author] else []) ++
  (if pyTruthy c.subject then ["--subject", c.subject] else []) ++
  (if pyTruthy c.keywords then ["--keywords", c.keywords] else []) ++
  (if c.jobs > 1 then ["--jobs", Nat.repr c.jobs] else [])

/-- The batch loop (src lines 597-619) calls
`process_single_file(file, args)` with the one `args` list synthesized
before the loop; this records, per file, the argument list passed to
its invocation. -/
def batchInvocations (c : UIConfig) (names : List String) :
    List (String × List String) :=
  let args := buildArgs c (names.headD "")
  names.map (fun f => (f, args))

/-! ## Batch driver (src lines 587-621) -/

/-- Python truthiness of `output_data` (`if output_data:` at src line
610): a present, non-empty byte string. -/
def bytesTruthy : Option (List Nat) → Bool
  | some b => !b.isEmpty
  | none => false

/-- The batch loop body over the files still to process, where `i` is
the index of the first of them and `total = len(uploaded_files)`.
Mirrors src lines 597-619: each iteration appends to `results` on a
truthy `output_data`, otherwise to `errors`, and always reports overall
progress `(i + 1) / total`.  The per-file outcome is the oracle
`perFile` (the `(output_data, error)` pair of `process_single_file` for
the i-th file).  Returns `(results, errors, progress reports)`. -/
def batchLoop (perFile : Nat → Option (List Nat) × Option String)
    (total : Nat) :
    Nat → List String →
      List (String × List Nat) × List (String × Option String) × List ℚ
  | _, [] => ([], [], [])
  | i, f :: rest =>
    let r := perFile i
    let t := batchLoop perFile total (i + 1) rest
    if bytesTruthy r.1 then
      ((f, r.1.getD []) :: t.1, t.2.1, (((i : ℚ) + 1) / (total : ℚ)) :: t.2.2)
    else
      (t.1, (f, r.2) :: t.2.1, (((i : ℚ) + 1) / (total : ℚ)) :: t.2.2)

/-- The whole batch run over the uploaded file names. -/
def runBatch (perFile : Nat → Option (List Nat) × Option String)
    (names : List String) :
    List (String × List Nat) × List (String × Option String) × List ℚ :=
  batchLoop perFile names.length 0 names

/-! ## Helper facts: decimal representations contain no dash -/

theorem digitChar_ne_dash (m : Nat) : Nat.digitChar m ≠ '-' := by
  by_cases h : m < 16
  · interval_cases m <;> decide
  · have h16 : Nat.digitChar m = '*' := by
      unfold Nat.digitChar
      repeat rw [if_neg (by omega)]
    rw [h16]
    decide

theorem toDigitsCore_no_dash (b : Nat) :
    ∀ (f n : Nat) (acc : List Char),
      '-' ∉ acc → '-' ∉ Nat.toDigitsCore b f n acc := by
  intro f
  induction f with
  | zero =>
    intro n acc h
    simpa [Nat.toDigitsCore] using h
  | succ f ih =>
    intro n acc h
    simp only [Nat.toDigitsCore]
    split_ifs
    · intro hmem
      rcases List.mem_cons.mp hmem with h1 | h1
      · exact digitChar_ne_dash (n % b) h1.symm
      · exact h h1
    · refine ih (n / b) (Nat.digitChar (n % b) :: acc) ?_
      intro hmem
      rcases List.mem_cons.mp hmem with h1 | h1
      · exact digitChar_ne_dash (n % b) h1.symm
      · exact h h1

theorem natRepr_no_dash (n : Nat) : '-' ∉ (Nat.repr n).data :=
  toDigitsCore_no_dash 10 (n + 1) n [] (by simp)

/-- `str(number)` never equals a string that contains a dash, so a
numeric argument value can never collide with a flag token. -/
theorem natRepr_ne_dashed (n : Nat) (s : String) (h : '-' ∈ s.data) :
    Nat.repr n ≠ s := by
  intro he
  exact natRepr_no_dash n (he ▸ h)

/-! ## Distinctness of the three violation messages -/

theorem dpiError_ne_jobsError (cpu : Nat) : dpiError ≠ jobsError cpu := by
  intro h
  have h2 : (some 'D' : Option Char) = some '线' := by
    calc (some 'D' : Option Char) = dpiError.data.head? := rfl
    _ = (jobsError cpu).data.head? := by rw [h]
    _ = some '线' := rfl
  exact absurd h2 (by decide)

theorem jpegError_ne_jobsError (cpu : Nat) : jpegError ≠ jobsError cpu := by
  intro h
  have h2 : (some 'J' : Option Char) = some '线' := by
    calc (some 'J' : Option Char) = jpegError.data.head? := rfl
    _ = (jobsError cpu).data.head? := by rw [h]
    _ = some '线' := rfl
  exact absurd h2 (by decide)

theorem dpiError_ne_jpegError : dpiError ≠ jpegError := by decide

/-! ## Claim theorems: validator -/

/-- C6: for every config, `validate_config` returns a sequence containing
the DPI-range violation if and only if `image_dpi` is outside `[72, 600]`,
and containing the thread-count violation if and only if `jobs` is outside
`[1, cpu_count]`; the three range rules are checked independently (each
membership is equivalent to its own range condition for every config, so
no violation suppresses another). -/
theorem validate_config_range_iffs (config : WebConfig) (cpu_count : Nat) :
    (dpiError ∈ validate_config config cpu_count ↔
      (config.image_dpi < 72 ∨ config.image_dpi > 600)) ∧
    (jobsError cpu_count ∈ validate_config config cpu_count ↔
      (config.jobs < 1 ∨ config.jobs > (cpu_count : Int))) ∧
    (jpegError ∈ validate_config config cpu_count ↔
      (config.jpeg_quality < 1 ∨ config.jpeg_quality > 100)) := by
  have h1 := dpiError_ne_jobsError cpu_count
  have h2 := jpegError_ne_jobsError cpu_count
  have h3 := dpiError_ne_jpegError
  have h1s := h1.symm
  have h2s := h2.symm
  have h3s := h3.symm
  unfold validate_config
  split_ifs <;> simp_all [List.mem_append]

/-- C9: `validate_config` is oblivious to `png_quality` — two configs
differing only in that field yield the same violation sequence — and
every emitted violation is one of the DPI, thread-count, or JPEG-quality
messages, so no pngQuality-range violation is ever emitted. -/
theorem validate_config_ignores_png (config : WebConfig) (v : Int)
    (cpu_count : Nat) :
    validate_config { config with png_quality := v } cpu_count
      = validate_config config cpu_count ∧
    ∀ e ∈ validate_config config cpu_count,
      e = dpiError ∨ e = jobsError cpu_count ∨ e = jpegError := by
  constructor
  · rfl
  · intro e he
    unfold validate_config at he
    rcases List.mem_append.mp he with h | h
    · rcases List.mem_append.mp h with h2 | h2 <;> (revert h2; split <;> first | (intro h3; simp at h3; tauto) | simp)
    · revert h; split <;> first | (intro h3; simp at h3; tauto) | simp

/-- Witness for C9 at a concrete config: the fully out-of-range config
emits the DPI violation, which the theorem shows is one of the three
known messages. -/
theorem validate_config_ignores_png_witness :
    dpiError = dpiError ∨ dpiError = jobsError 4 ∨ dpiError = jpegError :=
  (validate_config_ignores_png ⟨1000, 0, 0, 7⟩ 5 4).2 dpiError (by decide)

/-! ## Claim theorems: heuristic text detector -/

theorem pageHasText_iff (p : PDFPage) :
    pageHasText p = true ↔
      ∃ c, p.contents = some c ∧
        (pyContains c "Tj" = true ∨ pyContains c "TJ" = true ∨
          pyContains c "Td" = true) := by
  cases hp : p.contents <;> simp [pageHasText, hp, or_assoc]

/-- C8: `check_pdf_has_text` returns true exactly when, among at most the
first 3 pages of the parsed document, some page has a content-stream
representation containing one of the literal substrings "Tj", "TJ" or
"Td"; it returns false when no inspected page matches or the document
cannot be parsed, and it is a total function, so no error ever reaches
the caller. -/
theorem check_pdf_has_text_iff (doc : Option (List PDFPage)) :
    (check_pdf_has_text doc = true ↔
      ∃ pages, doc = some pages ∧
        ∃ p ∈ pages.take 3, ∃ c, p.contents = some c ∧
          (pyContains c "Tj" = true ∨ pyContains c "TJ" = true ∨
            pyContains c "Td" = true)) ∧
    check_pdf_has_text none = false := by
  refine ⟨?_, rfl⟩
  cases doc with
  | none => simp [check_pdf_has_text, check_pdf_has_text_run]
  | some pages =>
    have h : check_pdf_has_text (some pages) = (pages.take 3).any pageHasText := by
      simp only [check_pdf_has_text, check_pdf_has_text_run]
      split <;> simp_all
    rw [h, List.any_eq_true]
    simp [pageHasText_iff]

/-- C7 (code bug): the detector leaks its temporary PDF copy.  At a
one-page document whose content stream contains "Tj" it returns true
with the temporary file still present, because the early `return True`
precedes `os.unlink`; at an unparseable document it returns false with
the file still present; only the no-match path removes it. -/
theorem check_pdf_has_text_leak :
    check_pdf_has_text_run (some [⟨some "BT /F1 12 Tf (hello) Tj ET"⟩])
        = (true, true) ∧
    check_pdf_has_text_run none = (false, true) ∧
    check_pdf_has_text_run (some [⟨some "no content here"⟩]) = (false, false) :=
  ⟨rfl, rfl, rfl⟩

/-! ## Claim theorems: failure classification -/

/-- C1 counterexample: a stderr containing both "TesseractNotFoundError"
and "PriorOcrFoundError" is classified by the earlier branch of the
`elif` chain as `AlreadyHasText`, not `EngineNotFound`, so the claimed
"regardless of which other known substrings are present" fails. -/
theorem errorKind_counterexample :
    pyContains "PriorOcrFoundError: TesseractNotFoundError"
        "TesseractNotFoundError" = true ∧
    errorKind "PriorOcrFoundError: TesseractNotFoundError"
        = ErrKind.AlreadyHasText ∧
    errorKind "PriorOcrFoundError: TesseractNotFoundError"
        ≠ ErrKind.EngineNotFound :=
  ⟨by decide, by decide, by decide⟩

/-- C1 (amended): on a nonzero exit code, a stderr containing
"TesseractNotFoundError" is classified `EngineNotFound` — the returned
message carries the Tesseract remediation hint — provided stderr contains
neither "PriorOcrFoundError" nor "page already has text"; those two
substrings take priority and yield `AlreadyHasText` instead. -/
theorem run_engine_not_found (c : ChildRun)
    (hrc : c.returncode ≠ 0)
    (h1 : pyContains c.stderr "TesseractNotFoundError" = true)
    (h2 : pyContains c.stderr "PriorOcrFoundError" = false)
    (h3 : pyContains c.stderr "page already has text" = false) :
    errorKind c.stderr = ErrKind.EngineNotFound ∧
    process_single_file c =
      (none, some ("OCR处理失败 (退出码: " ++ toString c.returncode ++ ")\n"
        ++ c.stderr ++ engineNotFoundHint)) := by
  have hk : errorKind c.stderr = ErrKind.EngineNotFound := by
    simp [errorKind, h1, h2, h3]
  refine ⟨hk, ?_⟩
  unfold process_single_file
  rw [if_neg hrc]
  unfold nonzeroExitMsg
  rw [hk]

/-- Witness for C1 (amended) at a concrete failing run. -/
theorem run_engine_not_found_witness :
    errorKind "TesseractNotFoundError" = ErrKind.EngineNotFound ∧
    process_single_file ⟨1, "TesseractNotFoundError", some []⟩ =
      (none, some ("OCR处理失败 (退出码: " ++ toString (1 : Int) ++ ")\n"
        ++ "TesseractNotFoundError" ++ engineNotFoundHint)) :=
  run_engine_not_found ⟨1, "TesseractNotFoundError", some []⟩
    (by decide) (by decide) (by decide) (by decide)

/-- C3: `process_single_file` returns a success result carrying the
output bytes exactly when the exit code is 0 and the output file exists
with size strictly greater than 0; on exit code 0 with a missing or
empty output file it returns the `noOutputMsg` failure instead. -/
theorem process_single_file_success_iff (c : ChildRun) :
    ((process_single_file c).1.isSome ↔
      c.returncode = 0 ∧ ∃ b, c.outputFile = some b ∧ 0 < b.length) ∧
    (∀ b, c.outputFile = some b → 0 < b.length → c.returncode = 0 →
      process_single_file c = (some b, none)) ∧
    (c.returncode = 0 → (∀ b, c.outputFile = some b → b.length = 0) →
      process_single_file c = (none, some noOutputMsg)) := by
  unfold process_single_file
  rcases hc : c.outputFile with _ | b <;>
    by_cases hr : c.returncode = 0 <;>
      simp_all <;>
        rcases Nat.eq_zero_or_pos b.length with hb | hb <;> simp_all

/-- Witness for C3 at a concrete successful run. -/
theorem process_single_file_success_witness :
    process_single_file ⟨0, "", some [37, 80, 68, 70]⟩
      = (some [37, 80, 68, 70], none) :=
  (process_single_file_success_iff ⟨0, "", some [37, 80, 68, 70]⟩).2.1
    [37, 80, 68, 70] rfl (by decide) rfl

/-! ## Claim theorems: temporary files of the runner -/

/-- When the input temp file exists and neither unlink fails, the
`finally` block removes the input file, removes the output file exactly
when it was created, and touches nothing else. -/
theorem cleanupFinally_removes (uf fs : String → Bool) (outC : Bool)
    (inName outName : String) (hne : inName ≠ outName)
    (hufi : uf inName = false) (hufo : uf outName = false)
    (hfsin : fs inName = true) (n : String) :
    (cleanupFinally uf fs true outC inName outName).1 n =
      if n = inName then false
      else if n = outName ∧ outC = true then false
      else fs n := by
  have hne2 : outName ≠ inName := fun h => hne h.symm
  unfold cleanupFinally setFile
  simp only [hufi, hfsin, hne2, if_pos, if_neg, Bool.not_true, Bool.or_false,
    Bool.false_or, if_true, if_false]
  split_ifs <;> simp_all

/-- The `finally` block restores the pre-invocation file system whenever
the file-system argument differs from it only at the two temp paths,
the input file exists, and the output entry matches when it was not
created. -/
theorem cleanup_restores (uf fs fs0 : String → Bool) (outC : Bool)
    (inName outName : String) (hne : inName ≠ outName)
    (hufi : uf inName = false) (hufo : uf outName = false)
    (hfsin : fs inName = true)
    (hother : ∀ m, m ≠ inName → m ≠ outName → fs m = fs0 m)
    (hin : fs0 inName = false)
    (houtc : outC = false → fs outName = fs0 outName)
    (hout : fs0 outName = false)
    (n : String) :
    (cleanupFinally uf fs true outC inName outName).1 n = fs0 n := by
  rw [cleanupFinally_removes uf fs outC inName outName hne hufi hufo hfsin n]
  by_cases hn1 : n = inName
  · simp [hn1, hin]
  · by_cases hn2 : n = outName
    · subst hn2
      cases outC with
      | false => simp [hn1, houtc rfl]
      | true => simp [hn1, hout]
    · simp [hn1, hn2, hother n hn1 hn2]

/-- C2: every invocation of the modelled `process_single_file` removes
both temporary files before returning — whatever the exception point,
exit code and child behaviour, the file system it leaves equals the one
it started from (the two fresh temp paths are gone and nothing else is
touched) — and a failing `os.unlink` never propagates: the returned
`(output_data, error_msg)` result is the same under any unlink-failure
oracle. -/
theorem process_single_file_run_cleanup (w : RunWorld)
    (inName outName : String) (fs0 : String → Bool)
    (hne : inName ≠ outName)
    (hin : fs0 inName = false) (hout : fs0 outName = false)
    (hufi : w.unlinkFails inName = false)
    (hufo : w.unlinkFails outName = false) :
    (∀ n, (process_single_file_run w inName outName fs0).fs n = fs0 n) ∧
    (∀ uf,
      (process_single_file_run { w with unlinkFails := uf }
          inName outName fs0).result
        = (process_single_file_run w inName outName fs0).result) := by
  have hne2 : outName ≠ inName := fun h => hne h.symm
  constructor
  · intro n
    unfold process_single_file_run
    split_ifs <;> dsimp only <;>
      solve
      | refine cleanup_restores _ _ _ _ _ _ hne hufi hufo ?_ ?_ hin ?_ hout n <;>
          solve
          | simp [setFile, hne]
          | (intro m hm1 hm2; simp [setFile, hm1, hm2])
          | (intro hfalse; simp_all [setFile, hne2])
      | simp [cleanupFinally]
  · intro uf
    unfold process_single_file_run
    dsimp only
    split_ifs <;> rfl

/-- Witness for C2 at a concrete successful invocation over an empty
file system: the input temp path is gone when the call returns. -/
theorem process_single_file_run_cleanup_witness :
    (process_single_file_run ⟨none, "", ⟨0, "", some [1]⟩, fun _ => false⟩
        "tmp_in" "tmp_out" (fun _ => false)).fs "tmp_in" = false :=
  (process_single_file_run_cleanup ⟨none, "", ⟨0, "", some [1]⟩, fun _ => false⟩
    "tmp_in" "tmp_out" (fun _ => false)
    (by decide) rfl rfl rfl rfl).1 "tmp_in"

/-! ## Claim theorems: batch driver -/

/-- Characterisation of the batch loop when exactly the invocation at
index `k` fails and all others succeed with non-empty bytes. -/
theorem batchLoop_spec (perFile : Nat → Option (List Nat) × Option String)
    (B : Nat → List Nat) (k : Nat) (m : String) (total : Nat)
    (hfail : perFile k = (none, some m))
    (hsucc : ∀ j, j ≠ k → perFile j = (some (B j), none))
    (hB : ∀ j, j ≠ k → B j ≠ []) :
    ∀ (names : List String) (i : Nat),
      batchLoop perFile total i names =
        ((names.enumFrom i).filterMap
          (fun p => if p.1 = k then none else some (p.2, B p.1)),
         (names.enumFrom i).filterMap
          (fun p => if p.1 = k then some (p.2, some m) else none),
         (names.enumFrom i).map (fun p => ((p.1 : ℚ) + 1) / (total : ℚ))) := by
  intro names
  induction names with
  | nil => intro i; rfl
  | cons f rest ih =>
    intro i
    by_cases hik : i = k
    · subst hik
      simp [batchLoop, hfail, ih (i + 1), bytesTruthy]
    · have hBi := hB i hik
      rcases hBp : B i with _ | ⟨x, xs⟩
      · exact absurd hBp hBi
      · simp [batchLoop, hsucc i hik, ih (i + 1), bytesTruthy, hik, hBp]

/-- Among indices all above `k`, the failure filter hits nothing. -/
theorem enumFrom_fail_none {β : Type} (g : Nat × String → β) (k : Nat) :
    ∀ (l : List String) (i : Nat), k < i →
      (l.enumFrom i).filterMap
        (fun p => if p.1 = k then some (g p) else none) = [] := by
  intro l
  induction l with
  | nil => intro i _; rfl
  | cons f rest ih =>
    intro i hi
    have hik : i ≠ k := by omega
    simp [hik, ih (i + 1) (by omega)]

/-- With `i ≤ k < i + length`, the failure filter hits exactly the
entry at index `k`. -/
theorem enumFrom_fail_single {β : Type} (g : Nat × String → β) (k : Nat) :
    ∀ (l : List String) (i : Nat), i ≤ k → k < i + l.length →
      (l.enumFrom i).filterMap
        (fun p => if p.1 = k then some (g p) else none)
        = [g (k, l.getD (k - i) "")] := by
  intro l
  induction l with
  | nil => intro i h1 h2; simp at h2; omega
  | cons f rest ih =>
    intro i h1 h2
    by_cases hik : i = k
    · subst hik
      simp [enumFrom_fail_none g i rest (i + 1) (by omega)]
    · have h1' : i + 1 ≤ k := by omega
      have h2' : k < (i + 1) + rest.length := by
        simp at h2; omega
      have hk : k - i = (k - (i + 1)) + 1 := by omega
      simp [hik, ih (i + 1) h1' h2', hk]

/-- Rewriting the success filter as filter-then-map. -/
theorem filterMap_ne_eq_filter_map (k : Nat) (B : Nat → List Nat) :
    ∀ l : List (Nat × String),
      l.filterMap (fun p => if p.1 = k then none else some (p.2, B p.1))
        = (l.filter (fun p => p.1 != k)).map (fun p => (p.2, B p.1)) := by
  intro l
  induction l with
  | nil => rfl
  | cons x xs ih => by_cases h : x.1 = k <;> simp [h, ih, List.filter_cons]

/-- The first components of an enumeration form a numeric range. -/
theorem enumFrom_map_fst_comp {β : Type} (g : Nat → β) :
    ∀ (l : List String) (i : Nat),
      (l.enumFrom i).map (fun p => g p.1) = (List.range' i l.length).map g := by
  intro l
  induction l with
  | nil => intro i; rfl
  | cons f rest ih => intro i; simp [List.range'_succ, ih (i + 1)]

/-- C4: when exactly the file at (zero-based) index `k` fails and every
other file succeeds, the batch loop processes all files without
aborting: the errors sequence is exactly the failing file name with its
message, the results sequence pairs every other file, in order, with
its output bytes, and the reported overall progress after the i-th file
is `(i + 1) / N`, reaching 1 after the last file. -/
theorem runBatch_single_failure
    (perFile : Nat → Option (List Nat) × Option String)
    (B : Nat → List Nat) (k : Nat) (m : String) (names : List String)
    (hk : k < names.length)
    (hfail : perFile k = (none, some m))
    (hsucc : ∀ j, j ≠ k → perFile j = (some (B j), none))
    (hB : ∀ j, j ≠ k → B j ≠ []) :
    (runBatch perFile names).2.1 = [(names.getD k "", some m)] ∧
    (runBatch perFile names).1 =
      ((names.enumFrom 0).filter (fun p => p.1 != k)).map
        (fun p => (p.2, B p.1)) ∧
    (runBatch perFile names).2.2 =
      (List.range names.length).map
        (fun (j : Nat) => ((j : ℚ) + 1) / (names.length : ℚ)) ∧
    ((runBatch perFile names).2.2).getLast? = some 1 := by
  have hspec := batchLoop_spec perFile B k m names.length hfail hsucc hB names 0
  unfold runBatch
  rw [hspec]
  have hfailEq := enumFrom_fail_single (fun p => (p.2, some m)) k names 0
    (Nat.zero_le k) (by omega)
  have hprog := enumFrom_map_fst_comp
    (fun j => ((j : ℚ) + 1) / (names.length : ℚ)) names 0
  refine ⟨by simpa using hfailEq, by simp [filterMap_ne_eq_filter_map], ?_, ?_⟩
  · rw [hprog, ← List.range_eq_range']
  · rw [hprog, ← List.range_eq_range']
    rcases hN : names.length with _ | M
    · omega
    · rw [List.range_succ, List.map_append]
      simp only [List.map_cons, List.map_nil, List.getLast?_concat]
      have hcast : ((M : ℚ) + 1) ≠ 0 := by positivity
      have : ((M : ℚ) + 1) / ((M + 1 : Nat) : ℚ) = 1 := by
        push_cast
        exact div_self hcast
      rw [this]

/-- Witness for C4: a three-file batch whose middle file fails yields
exactly that failure, the two other successes, and full progress. -/
theorem runBatch_single_failure_witness :
    (runBatch
        (fun j => if j = 1 then (none, some "boom") else (some [7], none))
        ["a.pdf", "b.pdf", "c.pdf"]).2.1 = [("b.pdf", some "boom")] :=
  (runBatch_single_failure
    (fun j => if j = 1 then (none, some "boom") else (some [7], none))
    (fun _ => [7]) 1 "boom" ["a.pdf", "b.pdf", "c.pdf"]
    (by decide) rfl
    (fun j hj => by simp [hj])
    (fun j hj => by simp)).1

/-! ## Claim theorems: argument synthesis -/

theorem mem_ite_list {α : Type} (P : Prop) [Decidable P] (x : α) (l : List α) :
    (x ∈ if P then l else []) ↔ P ∧ x ∈ l := by
  split <;> simp_all

/-- C5: with widget-domain values (mode and the free-text fields do not
themselves spell an optimization flag), the synthesis emits none of
`--optimize`, `--jpeg-quality`, `--png-quality` when the optimize level
is "0", whatever the quality values are; and when the level is not "0"
it emits all three, each followed by its value, contiguously in that
order. -/
theorem buildArgs_optimize_flags (c : UIConfig) (firstName : String)
    (hmode : c.mode ∈ (["normal", "skip-text", "force-ocr", "redo-ocr"] : List String))
    (hfree : ∀ s ∈ [c.language, c.pages, c.output_type, c.title, c.author,
        c.subject, c.keywords],
      s ∉ (["--optimize", "--jpeg-quality", "--png-quality"] : List String)) :
    (c.optimize = "0" →
      "--optimize" ∉ buildArgs c firstName ∧
      "--jpeg-quality" ∉ buildArgs c firstName ∧
      "--png-quality" ∉ buildArgs c firstName) ∧
    (c.optimize ≠ "0" →
      ∃ pre post, buildArgs c firstName =
        pre ++ ["--optimize", c.optimize, "--jpeg-quality",
          Nat.repr c.jpeg_quality, "--png-quality",
          Nat.repr c.png_quality] ++ post) := by
  constructor
  · intro hopt
    have H : ∀ s ∈ [c.language, c.pages, c.output_type, c.title, c.author,
        c.subject, c.keywords],
        "--optimize" ≠ s ∧ "--jpeg-quality" ≠ s ∧ "--png-quality" ≠ s := by
      intro s hs
      have h := hfree s hs
      simp only [List.mem_cons, List.not_mem_nil, or_false, not_or] at h
      exact ⟨fun he => h.1 he.symm, fun he => h.2.1 he.symm, fun he => h.2.2 he.symm⟩
    obtain ⟨hl1, hl2, hl3⟩ := H c.language (by simp)
    obtain ⟨hp1, hp2, hp3⟩ := H c.pages (by simp)
    obtain ⟨ho1, ho2, ho3⟩ := H c.output_type (by simp)
    obtain ⟨ht1, ht2, ht3⟩ := H c.title (by simp)
    obtain ⟨ha1, ha2, ha3⟩ := H c.author (by simp)
    obtain ⟨hs1, hs2, hs3⟩ := H c.subject (by simp)
    obtain ⟨hk1, hk2, hk3⟩ := H c.keywords (by simp)
    have hr1 : ∀ n : Nat, "--optimize" ≠ Nat.repr n :=
      fun n he => natRepr_ne_dashed n _ (by decide) he.symm
    have hr2 : ∀ n : Nat, "--jpeg-quality" ≠ Nat.repr n :=
      fun n he => natRepr_ne_dashed n _ (by decide) he.symm
    have hr3 : ∀ n : Nat, "--png-quality" ≠ Nat.repr n :=
      fun n he => natRepr_ne_dashed n _ (by decide) he.symm
    simp only [List.mem_cons, List.not_mem_nil, or_false] at hmode
    refine ⟨?_, ?_, ?_⟩ <;> intro hmem <;>
      rcases hmode with hm | hm | hm | hm <;>
        simp_all [buildArgs, mem_ite_list, hopt]
  · intro hopt
    refine ⟨["ocrmypdf"] ++
      (if c.mode ≠ "normal" then ["--" ++ c.mode] else []) ++
      (if pyTruthy c.language then ["-l", c.language] else []) ++
      (if pyTruthy c.pages then ["--pages", c.pages] else []) ++
      (if !(pyEndsWith (pyLower firstName) ".pdf") && c.image_dpi != 0 then
        ["--image-dpi", Nat.repr c.image_dpi] else []) ++
      (if c.rotate_pages then ["--rotate-pages"] else []) ++
      (if c.deskew then ["--deskew"] else []) ++
      (if c.clean then ["--clean"] else []) ++
      (if c.clean_final then ["--clean-final"] else []) ++
      (if pyTruthy c.output_type then ["--output-type", c.output_type] else []),
      (if pyTruthy c.title then ["--title", c.title] else []) ++
      (if pyTruthy c.author then ["--author", c.author] else []) ++
      (if pyTruthy c.subject then ["--subject", c.subject] else []) ++
      (if pyTruthy c.keywords then ["--keywords", c.keywords] else []) ++
      (if c.jobs > 1 then ["--jobs", Nat.repr c.jobs] else []), ?_⟩
    simp [buildArgs, if_pos hopt, List.append_assoc]

/-- Witness for C5 at a concrete configuration with optimize level "0":
the `--optimize` flag is absent. -/
theorem buildArgs_optimize_flags_witness :
    "--optimize" ∉ buildArgs
      ⟨"normal", "eng", "", 300, false, false, false, false, "pdfa", "0",
        50, 50, "", "", "", "", 1⟩ "scan.png" :=
  ((buildArgs_optimize_flags
    ⟨"normal", "eng", "", 300, false, false, false, false, "pdfa", "0",
      50, 50, "", "", "", "", 1⟩ "scan.png"
    (by simp) (by decide)).1 rfl).1

/-- C10: in batch mode one argument list is synthesized once, before the
per-file loop, from `uploaded_files[0]`, and that same list is passed to
every invocation; consequently, with widget-domain values, `--image-dpi`
appears in the shared argument list if and only if the first uploaded
file name does not end in ".pdf" case-insensitively — and that decision
applies to every file of the batch. -/
theorem batch_image_dpi_first_file (c : UIConfig) (names : List String)
    (hdpi : c.image_dpi ≠ 0)
    (hmode : c.mode ∈ (["normal", "skip-text", "force-ocr", "redo-ocr"] : List String))
    (hopt : c.optimize ∈ (["0", "1", "2", "3"] : List String))
    (hfree : ∀ s ∈ [c.language, c.pages, c.output_type, c.title, c.author,
        c.subject, c.keywords], s ≠ "--image-dpi") :
    (batchInvocations c names).length = names.length ∧
    (∀ p ∈ batchInvocations c names,
      p.2 = buildArgs c (names.headD "")) ∧
    ("--image-dpi" ∈ buildArgs c (names.headD "") ↔
      ¬ pyEndsWith (pyLower (names.headD "")) ".pdf" = true) := by
  refine ⟨by simp [batchInvocations], ?_, ?_, ?_⟩
  · intro p hp
    simp only [batchInvocations, List.mem_map] at hp
    obtain ⟨f, _, rfl⟩ := hp
    rfl
  · intro hmem
    have H : ∀ s ∈ [c.language, c.pages, c.output_type, c.title, c.author,
        c.subject, c.keywords], "--image-dpi" ≠ s :=
      fun s hs he => hfree s hs he.symm
    obtain hl := H c.language (by simp)
    obtain hp := H c.pages (by simp)
    obtain ho := H c.output_type (by simp)
    obtain ht := H c.title (by simp)
    obtain ha := H c.author (by simp)
    obtain hs := H c.subject (by simp)
    obtain hk := H c.keywords (by simp)
    have hr : ∀ n : Nat, "--image-dpi" ≠ Nat.repr n :=
      fun n he => natRepr_ne_dashed n _ (by decide) he.symm
    simp only [List.mem_cons, List.not_mem_nil, or_false] at hmode hopt
    have hmodeNe : "--image-dpi" ≠ "--" ++ c.mode := by
      rcases hmode with hm | hm | hm | hm <;> rw [hm] <;> decide
    have hoptNe : "--image-dpi" ≠ c.optimize := by
      rcases hopt with hq | hq | hq | hq <;> rw [hq] <;> decide
    intro hpdf
    simp only [buildArgs, List.mem_append, mem_ite_list, List.mem_cons,
      List.not_mem_nil, or_false] at hmem
    simp_all
  · intro hpdf
    have hseg : "--image-dpi" ∈
        (if !(pyEndsWith (pyLower (names.headD "")) ".pdf") && c.image_dpi != 0 then
          ["--image-dpi", Nat.repr c.image_dpi] else []) := by
      have hcond : (!(pyEndsWith (pyLower (names.headD "")) ".pdf")
          && c.image_dpi != 0) = true := by
        simp only [Bool.and_eq_true, Bool.not_eq_true', bne_iff_ne]
        exact ⟨by simpa using hpdf, hdpi⟩
      rw [if_pos hcond]
      simp
    unfold buildArgs
    refine List.mem_append.mpr (Or.inl ?_)
    refine List.mem_append.mpr (Or.inl ?_)
    refine List.mem_append.mpr (Or.inl ?_)
    refine List.mem_append.mpr (Or.inl ?_)
    refine List.mem_append.mpr (Or.inl ?_)
    refine List.mem_append.mpr (Or.inl ?_)
    refine List.mem_append.mpr (Or.inl ?_)
    refine List.mem_append.mpr (Or.inl ?_)
    refine List.mem_append.mpr (Or.inl ?_)
    refine List.mem_append.mpr (Or.inl ?_)
    refine List.mem_append.mpr (Or.inl ?_)
    exact List.mem_append.mpr (Or.inr hseg)

/-- Witness for C10 at a concrete two-file batch whose first file is an
image: the shared argument list carries `--image-dpi`. -/
theorem batch_image_dpi_first_file_witness :
    "--image-dpi" ∈ buildArgs
      ⟨"normal", "eng", "", 300, false, false, false, false, "pdfa", "0",
        50, 50, "", "", "", "", 1⟩
      ((["scan.png", "doc.pdf"] : List String).headD "") :=
  (batch_image_dpi_first_file
    ⟨"normal", "eng", "", 300, false, false, false, false, "pdfa", "0",
      50, 50, "", "", "", "", 1⟩ ["scan.png", "doc.pdf"]
    (by decide) (by simp) (by simp) (by decide)).2.2.mpr (by decide)

end OCRWeb
